import Mathlib

/-!
Verification of the spotify-terminal cache fragment: `UriCache` (cache.py),
the path helpers and `PeriodicCallback` (common.py).

The filesystem is shallowly embedded: the set of existing directories is a
`List String` (queried by `os.path.exists`, grown by `os.makedirs`), and the
disk tier of the cache is an association list from filenames to serialized
blobs.  `pickle` is embedded as an abstract `Serializer` whose `load` is a
left inverse of `dump` on well-formed blobs and may fail on arbitrary blobs.
Ambient environment inputs (`tempfile.gettempdir()`, `time.time()`) are
passed as explicit arguments.  Python exceptions are `Except PyErr`; a bare
`except: pass` is the total recovery function `tryPass`.
-/

/-- Python exceptions that the modelled fragment can raise. -/
inductive PyErr where
  | keyError : PyErr
  | fileNotFoundError : PyErr
  | unpicklingError : PyErr
deriving DecidableEq, Repr

/-- Lookup in an association list, as Python dict membership/subscript. -/
def lookupA {α : Type} : List (String × α) → String → Option α
  | [], _ => none
  | (k, v) :: rest, key => if k = key then some v else lookupA rest key

/-- Insert-or-replace in an association list, as Python dict assignment. -/
def insertA {α : Type} : List (String × α) → String → α → List (String × α)
  | [], key, v => [(key, v)]
  | (k, w) :: rest, key, v =>
    if k = key then (key, v) :: rest else (k, w) :: insertA rest key v

/-- Remove every binding of a key, as Python `del d[key]` / `os.remove`. -/
def eraseA {α : Type} : List (String × α) → String → List (String × α)
  | [], _ => []
  | (k, v) :: rest, key =>
    if k = key then eraseA rest key else (k, v) :: eraseA rest key

/-- Recover from a caught exception with the unmodified original value:
the meaning of `try: ... except: pass` around a state mutation. -/
def tryPass {α : Type} (r : Except PyErr α) (orig : α) : α :=
  match r with
  | Except.ok x => x
  | Except.error _ => orig

/-- Abstract embedding of the `pickle` module: `dump` serializes a value to
a blob of bytes, `load` deserializes and is a left inverse of `dump`;
on a blob that is not a valid serialization, `load` returns `none`
(modelling the exception `pickle.load` raises). -/
structure Serializer (V : Type) where
  dump : V → List Nat
  load : List Nat → Option V
  load_dump : ∀ v, load (dump v) = some v

/-- A concrete serializer for `Nat` values, used to instantiate witnesses:
a value `n` serializes to the singleton blob, and every other blob is
rejected by `load` (a corrupted file). -/
def natSerializer : Serializer Nat where
  dump v := [v]
  load b := match b with
    | [v] => some v
    | _ => none
  load_dump _ := rfl

/-- `os.path.join(a, b)` for a relative second component. -/
def osPathJoin (a b : String) : String := a ++ "/" ++ b

/-- Contract model of `os.makedirs(path)`: afterwards the directory exists.
The real call also creates the intermediate directories recursively; they
are not tracked here because `os.path.exists` is only ever queried on the
full helper paths in this fragment. -/
def makedirs (fs : List String) (path : String) : List String := path :: fs

/-- The `ensure_dir` decorator of common.py: run the wrapped body, create
the resulting path if it does not exist, return the path. -/
def ensure_dir (body : List String → String × List String)
    (fs : List String) : String × List String :=
  if (body fs).1 ∈ (body fs).2 then ((body fs).1, (body fs).2)
  else ((body fs).1, makedirs (body fs).2 (body fs).1)

/-- `get_app_dir` of common.py: the application directory inside the
temporary directory, ensured to exist. `tmp` is `tempfile.gettempdir()`. -/
def get_app_dir (tmp : String) (fs : List String) : String × List String :=
  ensure_dir (fun fs0 => (osPathJoin tmp "spotifyterminal", fs0)) fs

/-- `get_app_file_path` of common.py for a single path component. -/
def get_app_file_path (tmp : String) (fs : List String) (arg : String) :
    String × List String :=
  (osPathJoin (get_app_dir tmp fs).1 arg, (get_app_dir tmp fs).2)

/-- `get_user_dir` of common.py: the per-user directory, ensured to exist. -/
def get_user_dir (tmp : String) (fs : List String) (username : String) :
    String × List String :=
  ensure_dir (fun fs0 => get_app_file_path tmp fs0 username) fs

/-- `get_user_file_path` of common.py for a single path component. -/
def get_user_file_path (tmp : String) (fs : List String)
    (username arg : String) : String × List String :=
  (osPathJoin (get_user_dir tmp fs username).1 arg,
   (get_user_dir tmp fs username).2)

/-- `get_cache` of common.py: the per-user cache directory, ensured. -/
def get_cache (tmp : String) (fs : List String) (username : String) :
    String × List String :=
  ensure_dir (fun fs0 => get_user_file_path tmp fs0 username ".cache") fs

/-- `get_file_from_cache` of common.py: path of a file in the user cache. -/
def get_file_from_cache (tmp : String) (fs : List String)
    (username file : String) : String × List String :=
  (osPathJoin (get_cache tmp fs username).1 file,
   (get_cache tmp fs username).2)

/-- `key.replace(":", "_")` of cache.py. -/
def replaceColon (key : String) : String :=
  String.mk (key.toList.map (fun ch => if ch = ':' then '_' else ch))

/-- The disk tier: an association list from filenames to serialized blobs. -/
abbrev Disk : Type := List (String × List Nat)

/-- The `UriCache` object of cache.py: a username and the in-memory
mapping `_cache`. -/
structure UriCache (V : Type) where
  username : String
  cache : List (String × V)
deriving DecidableEq, Repr

/-- `UriCache.get_filename`: the on-disk path for a key, namely
`get_file_from_cache(self.username, key.replace(":", "_"))`.  Its value
component does not depend on the directory state (proved below), so the
empty state is supplied. -/
def UriCache.get_filename {V : Type} (tmp : String) (c : UriCache V)
    (key : String) : String :=
  (get_file_from_cache tmp [] c.username (replaceColon key)).1

/-- `UriCache.get`: memory hit, else disk hit (deserialize and populate
memory), else a miss returning Python `None`.  The result pairs the
returned value (or the propagated exception) with the cache object's state
after the call. -/
def UriCache.get {V : Type} (S : Serializer V) (tmp : String)
    (c : UriCache V) (disk : Disk) (key : String) :
    Except PyErr (Option V) × UriCache V :=
  match lookupA c.cache key with
  | some v => (Except.ok (some v), c)
  | none =>
    match lookupA disk (UriCache.get_filename tmp c key) with
    | some blob =>
      match S.load blob with
      | some v =>
        (Except.ok (some v), { c with cache := insertA c.cache key v })
      | none => (Except.error PyErr.unpicklingError, c)
    | none => (Except.ok none, c)

/-- `UriCache.__setitem__`: update memory immediately and hand the
serialization work `(filename, item)` to a background thread.  The pending
disk write is returned, not yet applied to the disk. -/
def UriCache.setitem {V : Type} (tmp : String) (c : UriCache V)
    (key : String) (item : V) : UriCache V × (String × V) :=
  ({ c with cache := insertA c.cache key item },
   (UriCache.get_filename tmp c key, item))

/-- `UriCache.save`, the body of the background write thread: serialize the
item and write it to the file, overwriting existing content. -/
def UriCache.save {V : Type} (S : Serializer V) (disk : Disk)
    (filename : String) (item : V) : Disk :=
  insertA disk filename (S.dump item)

/-- `del self._cache[key]`: raises `KeyError` when the key is absent. -/
def dictDel {V : Type} (m : List (String × V)) (key : String) :
    Except PyErr (List (String × V)) :=
  match lookupA m key with
  | some _ => Except.ok (eraseA m key)
  | none => Except.error PyErr.keyError

/-- `os.remove(filename)`: raises when the file does not exist. -/
def osRemove (disk : Disk) (filename : String) : Except PyErr Disk :=
  match lookupA disk filename with
  | some _ => Except.ok (eraseA disk filename)
  | none => Except.error PyErr.fileNotFoundError

/-- `UriCache.clear`: best-effort removal from memory and from disk, each
attempt wrapped in `try: ... except: pass`. -/
def UriCache.clear {V : Type} (tmp : String) (c : UriCache V) (disk : Disk)
    (key : String) : UriCache V × Disk :=
  ({ c with cache := tryPass (dictDel c.cache key) c.cache },
   tryPass (osRemove disk (UriCache.get_filename tmp c key)) disk)

/-- The `PeriodicCallback` object of common.py.  Time is embedded as `ℚ`.
The held callable is modelled by the number of invocations an operation
performs, returned alongside the successor state. -/
structure PeriodicCallback where
  period : ℚ
  active : Bool
  nextCallTime : ℚ
deriving DecidableEq, Repr

/-- `PeriodicCallback.update`: if the call time has reached the scheduled
time and the instance is active, invoke the callable once and advance the
schedule by one period.  Returns the new state and how many times the
callable was invoked. -/
def PeriodicCallback.update (pc : PeriodicCallback) (call_time : ℚ) :
    PeriodicCallback × Nat :=
  if pc.nextCallTime ≤ call_time ∧ pc.active = true then
    ({ pc with nextCallTime := pc.nextCallTime + pc.period }, 1)
  else (pc, 0)

/-- `PeriodicCallback.call_at`. -/
def PeriodicCallback.call_at (pc : PeriodicCallback) (call_time : ℚ) :
    PeriodicCallback :=
  { pc with nextCallTime := call_time }

/-- `PeriodicCallback.call_in`; `now` is the ambient `time.time()`. -/
def PeriodicCallback.call_in (pc : PeriodicCallback) (now delta : ℚ) :
    PeriodicCallback :=
  pc.call_at (now + delta)

/-- `PeriodicCallback.call_now`; `now` is the ambient `time.time()`. -/
def PeriodicCallback.call_now (pc : PeriodicCallback) (now : ℚ) :
    PeriodicCallback :=
  pc.call_in now 0

/-- `PeriodicCallback.activate`; `now` is the ambient `time.time()`. -/
def PeriodicCallback.activate (pc : PeriodicCallback) (now : ℚ) :
    PeriodicCallback :=
  PeriodicCallback.call_now { pc with active := true } now

/-- `PeriodicCallback.deactivate`. -/
def PeriodicCallback.deactivate (pc : PeriodicCallback) : PeriodicCallback :=
  { pc with active := false }

/-! ### Association-list lemmas -/

theorem lookupA_insertA_self {α : Type} (l : List (String × α)) (k : String)
    (v : α) : lookupA (insertA l k v) k = some v := by
  induction l with
  | nil => simp [insertA, lookupA]
  | cons hd tl ih =>
    obtain ⟨k0, v0⟩ := hd
    by_cases h : k0 = k
    · simp [insertA, lookupA, h]
    · simp [insertA, lookupA, h, ih]

theorem lookupA_eraseA_self {α : Type} (l : List (String × α)) (k : String) :
    lookupA (eraseA l k) k = none := by
  induction l with
  | nil => simp [eraseA, lookupA]
  | cons hd tl ih =>
    obtain ⟨k0, v0⟩ := hd
    by_cases h : k0 = k
    · simp [eraseA, h, ih]
    · simp [eraseA, lookupA, h, ih]

theorem lookupA_tryPass_dictDel {V : Type} (m : List (String × V))
    (k : String) : lookupA (tryPass (dictDel m k) m) k = none := by
  cases h : lookupA m k with
  | none => simp [dictDel, h, tryPass]
  | some v => simp [dictDel, h, tryPass, lookupA_eraseA_self]

theorem lookupA_tryPass_osRemove (disk : Disk) (fn : String) :
    lookupA (tryPass (osRemove disk fn) disk) fn = none := by
  cases h : lookupA disk fn with
  | none => simp [osRemove, h, tryPass]
  | some b => simp [osRemove, h, tryPass, lookupA_eraseA_self]

theorem tryPass_dictDel_of_absent {V : Type} (m : List (String × V))
    (k : String) (h : lookupA m k = none) :
    tryPass (dictDel m k) m = m := by
  simp [dictDel, h, tryPass]

theorem tryPass_osRemove_of_absent (disk : Disk) (fn : String)
    (h : lookupA disk fn = none) :
    tryPass (osRemove disk fn) disk = disk := by
  simp [osRemove, h, tryPass]

theorem clear_of_absent {V : Type} (tmp : String) (c : UriCache V)
    (disk : Disk) (k : String) (h1 : lookupA c.cache k = none)
    (h2 : lookupA disk (UriCache.get_filename tmp c k) = none) :
    UriCache.clear tmp c disk k = (c, disk) := by
  simp [UriCache.clear, dictDel, osRemove, h1, h2, tryPass]

/-! ### Claim theorems -/

/-- C1: `UriCache.get` follows exactly the three-branch algorithm: a memory
hit returns the stored value with no state change and no dependence on the
disk; otherwise a disk hit deserializes the file, writes the result through
into memory, and returns it; otherwise absence is reported with no
exception and no state change. -/
theorem uriCache_get_follows_algorithm {V : Type} (S : Serializer V)
    (tmp : String) (c : UriCache V) (disk : Disk) (key : String) :
    (∀ v, lookupA c.cache key = some v →
      UriCache.get S tmp c disk key = (Except.ok (some v), c))
  ∧ (∀ blob v, lookupA c.cache key = none →
      lookupA disk (UriCache.get_filename tmp c key) = some blob →
      S.load blob = some v →
      UriCache.get S tmp c disk key =
        (Except.ok (some v), { c with cache := insertA c.cache key v }))
  ∧ (lookupA c.cache key = none →
      lookupA disk (UriCache.get_filename tmp c key) = none →
      UriCache.get S tmp c disk key = (Except.ok none, c)) := by
  refine ⟨?_, ?_, ?_⟩ <;> intros <;> simp [UriCache.get, *]

/-- Witness for C1 at concrete inputs: a memory hit, a disk hit with
write-through, and a miss. -/
theorem uriCache_get_follows_algorithm_witness :
    UriCache.get natSerializer "/tmp" (⟨"u", [("k", 5)]⟩ : UriCache Nat)
      [] "k" = (Except.ok (some 5), ⟨"u", [("k", 5)]⟩)
  ∧ UriCache.get natSerializer "/tmp" (⟨"u", []⟩ : UriCache Nat)
      [(UriCache.get_filename "/tmp" (⟨"u", []⟩ : UriCache Nat) "k", [7])]
      "k" = (Except.ok (some 7), ⟨"u", [("k", 7)]⟩)
  ∧ UriCache.get natSerializer "/tmp" (⟨"u", []⟩ : UriCache Nat) [] "k" =
      (Except.ok none, ⟨"u", []⟩) := by
  refine ⟨?_, ?_, ?_⟩
  · exact (uriCache_get_follows_algorithm natSerializer "/tmp"
      ⟨"u", [("k", 5)]⟩ [] "k").1 5 (by decide)
  · have h := (uriCache_get_follows_algorithm natSerializer "/tmp"
      ⟨"u", []⟩ [(UriCache.get_filename "/tmp"
        (⟨"u", []⟩ : UriCache Nat) "k", [7])] "k").2.1 [7] 7
      rfl (by decide) rfl
    simpa [insertA] using h
  · exact (uriCache_get_follows_algorithm natSerializer "/tmp"
      ⟨"u", []⟩ [] "k").2.2 rfl rfl

/-- C2: read-your-writes on the memory tier: for every cache state and
every disk state (the background write need not have completed),
`set(k, v)` followed by `get(k)` returns `v`. -/
theorem set_then_get_returns_value {V : Type} (S : Serializer V)
    (tmp : String) (c : UriCache V) (disk : Disk) (k : String) (v : V) :
    (UriCache.get S tmp (UriCache.setitem tmp c k v).1 disk k).1 =
      Except.ok (some v) := by
  simp [UriCache.get, UriCache.setitem, lookupA_insertA_self]

/-- C3: `clear(k)` followed by `get(k)` reports absence, for every prior
memory and disk state. -/
theorem clear_then_get_absent {V : Type} (S : Serializer V) (tmp : String)
    (c : UriCache V) (disk : Disk) (k : String) :
    (UriCache.get S tmp (UriCache.clear tmp c disk k).1
        (UriCache.clear tmp c disk k).2 k).1 = Except.ok none := by
  simp [UriCache.get, UriCache.clear, UriCache.get_filename,
    lookupA_tryPass_dictDel, lookupA_tryPass_osRemove]

/-- C4: after `set(k, v)` and completion of the background write, the
on-disk entry file holds the serialization of `v`, deserializing it yields
`v`, and a freshly constructed cache for the same user returns `v` from
`get(k)`. -/
theorem set_save_roundtrip {V : Type} (S : Serializer V) (tmp : String)
    (c : UriCache V) (disk : Disk) (k : String) (v : V) :
    lookupA (UriCache.save S disk (UriCache.setitem tmp c k v).2.1
        (UriCache.setitem tmp c k v).2.2) (UriCache.setitem tmp c k v).2.1 =
      some (S.dump v)
  ∧ S.load (S.dump v) = some v
  ∧ (UriCache.get S tmp ({ username := c.username, cache := [] } : UriCache V)
      (UriCache.save S disk (UriCache.setitem tmp c k v).2.1
        (UriCache.setitem tmp c k v).2.2) k).1 = Except.ok (some v) := by
  refine ⟨?_, S.load_dump v, ?_⟩
  · simp [UriCache.save, UriCache.setitem, lookupA_insertA_self]
  · simp [UriCache.get, UriCache.save, UriCache.setitem, lookupA,
      UriCache.get_filename, lookupA_insertA_self, S.load_dump]

/-- C7: `clear` never raises: when nothing exists to remove (both inner
removal attempts raise and are swallowed) it returns the state unchanged,
and calling `clear` twice in a row is the same as calling it once, so the
second call produces no error either. -/
theorem clear_idempotent_no_error {V : Type} (tmp : String) (c : UriCache V)
    (disk : Disk) (k : String) :
    UriCache.clear tmp (UriCache.clear tmp c disk k).1
        (UriCache.clear tmp c disk k).2 k = UriCache.clear tmp c disk k
  ∧ UriCache.clear tmp ({ username := c.username, cache := [] } : UriCache V)
      ([] : Disk) k =
      (({ username := c.username, cache := [] } : UriCache V), ([] : Disk)) := by
  constructor
  · exact clear_of_absent tmp _ _ k (lookupA_tryPass_dictDel c.cache k)
      (lookupA_tryPass_osRemove disk (UriCache.get_filename tmp c k))
  · exact clear_of_absent tmp _ _ k rfl rfl

/-- C9: when the entry file exists but its contents fail to deserialize,
`get` propagates the deserialization error and leaves the in-memory
mapping unchanged. -/
theorem get_propagates_unpickling_error {V : Type} (S : Serializer V)
    (tmp : String) (c : UriCache V) (disk : Disk) (key : String)
    (blob : List Nat) (hmem : lookupA c.cache key = none)
    (hdisk : lookupA disk (UriCache.get_filename tmp c key) = some blob)
    (hload : S.load blob = none) :
    UriCache.get S tmp c disk key =
      (Except.error PyErr.unpicklingError, c) := by
  simp [UriCache.get, hmem, hdisk, hload]

/-- Witness for C9: a corrupted (empty) blob on disk makes `get` raise and
leaves memory empty. -/
theorem get_propagates_unpickling_error_witness :
    UriCache.get natSerializer "/tmp" (⟨"u", []⟩ : UriCache Nat)
      [(UriCache.get_filename "/tmp" (⟨"u", []⟩ : UriCache Nat) "k", [])]
      "k" = (Except.error PyErr.unpicklingError, ⟨"u", []⟩) :=
  get_propagates_unpickling_error natSerializer "/tmp" ⟨"u", []⟩ _ "k" []
    rfl (by decide) rfl

/-- Counterexample to C5 as stated: missed ticks are NOT silently dropped.
With period 1, next-fire time 0 and active, a first `update` at time 10
fires once and advances the schedule only to 1; a second `update` at the
very same time 10 fires again (and the schedule is still far behind, at 2).
If the nine missed ticks had been coalesced into the first firing, the
second call at the same instant would not fire. -/
theorem periodic_missed_ticks_counterexample :
    (PeriodicCallback.update ⟨1, true, 0⟩ 10).2 = 1
  ∧ (PeriodicCallback.update ⟨1, true, 0⟩ 10).1.nextCallTime = 1
  ∧ (PeriodicCallback.update
      (PeriodicCallback.update ⟨1, true, 0⟩ 10).1 10).2 = 1
  ∧ (PeriodicCallback.update
      (PeriodicCallback.update ⟨1, true, 0⟩ 10).1 10).1.nextCallTime = 2 := by
  refine ⟨?_, ?_, ?_, ?_⟩ <;> norm_num [PeriodicCallback.update]

/-- C5 (amended): a single `update(now)` invokes the callable and advances
the next-fire time by exactly one period if and only if `now` has reached
the next-fire time and the instance is active; it never fires the callable
more than once per call and otherwise leaves the state unchanged.  Within
one `update` call missed ticks produce only this single firing, but they
are not dropped: the schedule advances by only one period, so subsequent
`update` calls fire immediately until it catches up. -/
theorem periodic_update_fires_iff (pc : PeriodicCallback) (t : ℚ) :
    (pc.update t).2 ≤ 1
  ∧ ((pc.update t).2 = 1 ↔ (pc.nextCallTime ≤ t ∧ pc.active = true))
  ∧ ((pc.update t).2 = 1 →
      (pc.update t).1 = { pc with nextCallTime := pc.nextCallTime + pc.period })
  ∧ ((pc.update t).2 = 0 → (pc.update t).1 = pc) := by
  unfold PeriodicCallback.update
  by_cases h : pc.nextCallTime ≤ t ∧ pc.active = true <;> simp [h]

/-- Witness for C5 (amended) at concrete inputs: an on-time active instance
fires and advances by one period; a not-yet-due instance does not fire and
is unchanged. -/
theorem periodic_update_fires_iff_witness :
    (PeriodicCallback.update ⟨2, true, 3⟩ 5).1 =
      (⟨2, true, 3 + 2⟩ : PeriodicCallback)
  ∧ (PeriodicCallback.update ⟨2, true, 7⟩ 5).1 =
      (⟨2, true, 7⟩ : PeriodicCallback) :=
  ⟨(periodic_update_fires_iff ⟨2, true, 3⟩ 5).2.2.1
    (by norm_num [PeriodicCallback.update]),
   (periodic_update_fires_iff ⟨2, true, 7⟩ 5).2.2.2
    (by norm_num [PeriodicCallback.update])⟩

/-- C10: `activate` sets the instance active and resets the next-fire time
to the activation time, so the first `update` at or after the activation
time fires immediately, regardless of the previous schedule. -/
theorem activate_then_update_fires (pc : PeriodicCallback) (t0 t : ℚ)
    (h : t0 ≤ t) :
    (pc.activate t0).active = true
  ∧ (pc.activate t0).nextCallTime = t0
  ∧ ((pc.activate t0).update t).2 = 1 := by
  refine ⟨rfl, ?_, ?_⟩
  · simp [PeriodicCallback.activate, PeriodicCallback.call_now,
      PeriodicCallback.call_in, PeriodicCallback.call_at]
  · simp [PeriodicCallback.update, PeriodicCallback.activate,
      PeriodicCallback.call_now, PeriodicCallback.call_in,
      PeriodicCallback.call_at, h]

/-- Witness for C10: a deactivated instance scheduled far in the future
(time 100) is activated at time 7 and fires on the very next `update` at
time 7. -/
theorem activate_then_update_fires_witness :
    ((PeriodicCallback.activate ⟨5, false, 100⟩ 7).update 7).2 = 1 :=
  (activate_then_update_fires ⟨5, false, 100⟩ 7 7 (by norm_num)).2.2

theorem ensure_dir_fst (body : List String → String × List String)
    (fs : List String) : (ensure_dir body fs).1 = (body fs).1 := by
  unfold ensure_dir
  split <;> rfl

theorem ensure_dir_mem (body : List String → String × List String)
    (fs : List String) : (ensure_dir body fs).1 ∈ (ensure_dir body fs).2 := by
  unfold ensure_dir
  split
  · next h => simpa using h
  · simp [makedirs]

theorem ensure_dir_sub (body : List String → String × List String)
    (fs : List String) : (body fs).2 ⊆ (ensure_dir body fs).2 := by
  unfold ensure_dir
  split
  · exact fun a ha => ha
  · exact fun a ha => List.mem_cons_of_mem _ ha

theorem ensure_dir_of_mem (body : List String → String × List String)
    (fs : List String) (h : (body fs).1 ∈ (body fs).2) :
    ensure_dir body fs = body fs := by
  simp [ensure_dir, h]

theorem get_app_dir_fst (tmp : String) (fs : List String) :
    (get_app_dir tmp fs).1 = osPathJoin tmp "spotifyterminal" :=
  ensure_dir_fst _ fs

theorem get_user_dir_fst (tmp : String) (fs : List String) (u : String) :
    (get_user_dir tmp fs u).1 =
      osPathJoin (osPathJoin tmp "spotifyterminal") u := by
  unfold get_user_dir
  rw [ensure_dir_fst]
  simp [get_app_file_path, get_app_dir_fst]

theorem get_cache_fst (tmp : String) (fs : List String) (u : String) :
    (get_cache tmp fs u).1 =
      osPathJoin (osPathJoin (osPathJoin tmp "spotifyterminal") u)
        ".cache" := by
  unfold get_cache
  rw [ensure_dir_fst]
  simp [get_user_file_path, get_user_dir_fst]

theorem get_file_from_cache_fst (tmp : String) (fs : List String)
    (u file : String) :
    (get_file_from_cache tmp fs u file).1 =
      osPathJoin (osPathJoin (osPathJoin (osPathJoin tmp "spotifyterminal")
        u) ".cache") file := by
  unfold get_file_from_cache
  simp [get_cache_fst]

theorem get_app_dir_of_mem (tmp : String) (fs : List String)
    (h : osPathJoin tmp "spotifyterminal" ∈ fs) :
    get_app_dir tmp fs = (osPathJoin tmp "spotifyterminal", fs) :=
  ensure_dir_of_mem _ fs h

theorem get_user_dir_of_mem (tmp : String) (fs : List String) (u : String)
    (h1 : osPathJoin tmp "spotifyterminal" ∈ fs)
    (h2 : osPathJoin (osPathJoin tmp "spotifyterminal") u ∈ fs) :
    get_user_dir tmp fs u =
      (osPathJoin (osPathJoin tmp "spotifyterminal") u, fs) := by
  have hb : get_app_file_path tmp fs u =
      (osPathJoin (osPathJoin tmp "spotifyterminal") u, fs) := by
    simp [get_app_file_path, get_app_dir_of_mem tmp fs h1]
  have hmem : (get_app_file_path tmp fs u).1 ∈ (get_app_file_path tmp fs u).2 := by
    rw [hb]
    exact h2
  unfold get_user_dir
  rw [ensure_dir_of_mem (fun fs0 => get_app_file_path tmp fs0 u) fs hmem]
  exact hb

theorem get_cache_of_mem (tmp : String) (fs : List String) (u : String)
    (h1 : osPathJoin tmp "spotifyterminal" ∈ fs)
    (h2 : osPathJoin (osPathJoin tmp "spotifyterminal") u ∈ fs)
    (h3 : osPathJoin (osPathJoin (osPathJoin tmp "spotifyterminal") u)
      ".cache" ∈ fs) :
    get_cache tmp fs u =
      (osPathJoin (osPathJoin (osPathJoin tmp "spotifyterminal") u)
        ".cache", fs) := by
  have hb : get_user_file_path tmp fs u ".cache" =
      (osPathJoin (osPathJoin (osPathJoin tmp "spotifyterminal") u)
        ".cache", fs) := by
    simp [get_user_file_path, get_user_dir_of_mem tmp fs u h1 h2]
  have hmem : (get_user_file_path tmp fs u ".cache").1 ∈
      (get_user_file_path tmp fs u ".cache").2 := by
    rw [hb]
    exact h3
  unfold get_cache
  rw [ensure_dir_of_mem (fun fs0 => get_user_file_path tmp fs0 u ".cache")
    fs hmem]
  exact hb

theorem app_dir_mem_get_app_dir (tmp : String) (fs : List String) :
    osPathJoin tmp "spotifyterminal" ∈ (get_app_dir tmp fs).2 := by
  have h := ensure_dir_mem
    (fun fs0 => (osPathJoin tmp "spotifyterminal", fs0)) fs
  rwa [ensure_dir_fst] at h

theorem user_dir_mem_get_user_dir (tmp : String) (fs : List String)
    (u : String) :
    osPathJoin (osPathJoin tmp "spotifyterminal") u ∈
      (get_user_dir tmp fs u).2 := by
  have h := ensure_dir_mem (fun fs0 => get_app_file_path tmp fs0 u) fs
  rw [ensure_dir_fst] at h
  have hfst : ((fun fs0 => get_app_file_path tmp fs0 u) fs).1 =
      osPathJoin (osPathJoin tmp "spotifyterminal") u := by
    simp [get_app_file_path, get_app_dir_fst]
  rwa [hfst] at h

theorem app_dir_mem_get_user_dir (tmp : String) (fs : List String)
    (u : String) :
    osPathJoin tmp "spotifyterminal" ∈ (get_user_dir tmp fs u).2 := by
  unfold get_user_dir
  refine ensure_dir_sub _ fs ?_
  show osPathJoin tmp "spotifyterminal" ∈ (get_app_file_path tmp fs u).2
  exact app_dir_mem_get_app_dir tmp fs

theorem cache_dir_mem_get_cache (tmp : String) (fs : List String)
    (u : String) :
    osPathJoin (osPathJoin (osPathJoin tmp "spotifyterminal") u) ".cache" ∈
      (get_cache tmp fs u).2 := by
  have h := ensure_dir_mem (fun fs0 => get_user_file_path tmp fs0 u ".cache") fs
  rw [ensure_dir_fst] at h
  have hfst : ((fun fs0 => get_user_file_path tmp fs0 u ".cache") fs).1 =
      osPathJoin (osPathJoin (osPathJoin tmp "spotifyterminal") u)
        ".cache" := by
    simp [get_user_file_path, get_user_dir_fst]
  rwa [hfst] at h

theorem user_dir_mem_get_cache (tmp : String) (fs : List String)
    (u : String) :
    osPathJoin (osPathJoin tmp "spotifyterminal") u ∈
      (get_cache tmp fs u).2 := by
  unfold get_cache
  refine ensure_dir_sub _ fs ?_
  show osPathJoin (osPathJoin tmp "spotifyterminal") u ∈
    (get_user_file_path tmp fs u ".cache").2
  exact user_dir_mem_get_user_dir tmp fs u

theorem app_dir_mem_get_cache (tmp : String) (fs : List String)
    (u : String) :
    osPathJoin tmp "spotifyterminal" ∈ (get_cache tmp fs u).2 := by
  unfold get_cache
  refine ensure_dir_sub _ fs ?_
  show osPathJoin tmp "spotifyterminal" ∈
    (get_user_file_path tmp fs u ".cache").2
  exact app_dir_mem_get_user_dir tmp fs u

/-- C8: every directory-returning helper (`get_app_dir`, `get_user_dir`,
`get_cache`) ensures its directory exists before returning its path, and a
second call on the resulting filesystem state returns the same path and
performs no further modification. -/
theorem dir_helpers_ensure_exists_idempotent (tmp : String)
    (fs : List String) (u : String) :
    (get_app_dir tmp fs).1 ∈ (get_app_dir tmp fs).2
  ∧ get_app_dir tmp (get_app_dir tmp fs).2 = get_app_dir tmp fs
  ∧ (get_user_dir tmp fs u).1 ∈ (get_user_dir tmp fs u).2
  ∧ get_user_dir tmp (get_user_dir tmp fs u).2 u = get_user_dir tmp fs u
  ∧ (get_cache tmp fs u).1 ∈ (get_cache tmp fs u).2
  ∧ get_cache tmp (get_cache tmp fs u).2 u = get_cache tmp fs u := by
  refine ⟨ensure_dir_mem _ fs, ?_, ensure_dir_mem _ fs, ?_,
    ensure_dir_mem _ fs, ?_⟩
  · rw [get_app_dir_of_mem tmp _ (app_dir_mem_get_app_dir tmp fs),
      ← get_app_dir_fst tmp fs]
  · rw [get_user_dir_of_mem tmp _ u (app_dir_mem_get_user_dir tmp fs u)
      (user_dir_mem_get_user_dir tmp fs u), ← get_user_dir_fst tmp fs u]
  · rw [get_cache_of_mem tmp _ u (app_dir_mem_get_cache tmp fs u)
      (user_dir_mem_get_cache tmp fs u) (cache_dir_mem_get_cache tmp fs u),
      ← get_cache_fst tmp fs u]

/-- C6: `get_filename` computes a pure function of its key: its value
agrees with `get_file_from_cache` on every directory state, it equals
`<app-dir>/<username>/.cache/<sanitized-key>` where sanitization replaces
every colon with an underscore, and consequently the distinct keys
`"a:b"` and `"a_b"` map to the same on-disk path. -/
theorem get_filename_pure_sanitized {V : Type} (tmp : String)
    (fs : List String) (c : UriCache V) (key : String) :
    UriCache.get_filename tmp c key =
      (get_file_from_cache tmp fs c.username (replaceColon key)).1
  ∧ UriCache.get_filename tmp c key =
      osPathJoin (osPathJoin (osPathJoin (osPathJoin tmp "spotifyterminal")
        c.username) ".cache") (replaceColon key)
  ∧ replaceColon "a:b" = "a_b"
  ∧ "a:b" ≠ "a_b"
  ∧ UriCache.get_filename tmp c "a:b" = UriCache.get_filename tmp c "a_b" := by
  have hcolon : replaceColon "a:b" = replaceColon "a_b" := by decide
  refine ⟨?_, ?_, by decide, by decide, ?_⟩
  · simp [UriCache.get_filename, get_file_from_cache_fst]
  · simp [UriCache.get_filename, get_file_from_cache_fst]
  · simp [UriCache.get_filename, hcolon]

/-- Witness for C6: the colliding keys at a concrete cache instance. -/
theorem get_filename_pure_sanitized_witness :
    UriCache.get_filename "/tmp" (⟨"u", []⟩ : UriCache Nat) "a:b" =
      UriCache.get_filename "/tmp" (⟨"u", []⟩ : UriCache Nat) "a_b" :=
  (get_filename_pure_sanitized "/tmp" [] ⟨"u", []⟩ "a:b").2.2.2.2
